import Mathlib

/-!
Shallow embedding of `custom_components/hyperhdr/switch.py` (the switch
platform of the HyperHDR home-automation integration), together with models
of the small pieces of the integration and of its external collaborators
that the switch platform uses: the string constants of the external
`hyperhdr` client library, the `slugify` helper of the host framework, and
the integration-level helpers (`get_hyperhdr_unique_id`,
`get_hyperhdr_device_id`, `SIGNAL_ENTITY_REMOVE`, name/type constants).

Python strings are modelled as Lean `String`, Python dicts holding a
component snapshot as a record with an `Option Bool` field (a missing
`enabled` key is `none`), a Python `dict` raising `KeyError` on `d[k]` as
an `Option`-valued lookup, and the mutating `dict.setdefault` as a function
returning the value read together with the updated snapshot collection.
-/

namespace HyperHDR

/-! Constants of the external `hyperhdr` client library (`hyperhdr.const`).
The library is an external collaborator; the key strings and the
component-id-to-name table are modelled after it. -/

def KEY_COMPONENT : String := "component"

def KEY_COMPONENTS : String := "components"

def KEY_COMPONENTSTATE : String := "componentstate"

def KEY_ENABLED : String := "enabled"

def KEY_NAME : String := "name"

def KEY_STATE : String := "state"

def KEY_UPDATE : String := "update"

def KEY_COMPONENTID_ALL : String := "ALL"

def KEY_COMPONENTID_SMOOTHING : String := "SMOOTHING"

def KEY_COMPONENTID_BLACKBORDER : String := "BLACKBORDER"

def KEY_COMPONENTID_FORWARDER : String := "FORWARDER"

def KEY_COMPONENTID_BOBLIGHTSERVER : String := "BOBLIGHTSERVER"

def KEY_COMPONENTID_SYSTEMGRABBER : String := "SYSTEMGRABBER"

def KEY_COMPONENTID_LEDDEVICE : String := "LEDDEVICE"

def KEY_COMPONENTID_VIDEOGRABBER : String := "VIDEOGRABBER"

def KEY_COMPONENTID_HDR : String := "HDR"

/-- The component-id to display-name table of the external client library,
modelled as an association list (a Python dict with string keys). -/
def KEY_COMPONENTID_TO_NAME : List (String × String) :=
  [(KEY_COMPONENTID_ALL, "All"),
   (KEY_COMPONENTID_SMOOTHING, "Smoothing"),
   (KEY_COMPONENTID_BLACKBORDER, "Blackbar Detection"),
   (KEY_COMPONENTID_FORWARDER, "Forwarder"),
   (KEY_COMPONENTID_BOBLIGHTSERVER, "Boblight Server"),
   (KEY_COMPONENTID_SYSTEMGRABBER, "Platform Capture"),
   (KEY_COMPONENTID_LEDDEVICE, "LED Device"),
   (KEY_COMPONENTID_VIDEOGRABBER, "USB Capture"),
   (KEY_COMPONENTID_HDR, "HDR")]

/-! Integration-level constants and helpers that live outside
`switch.py` (the integration's `const.py` / `__init__.py`). -/

/-- Modelled from the spec: `TYPE_HYPERHDR_COMPONENT_SWITCH_BASE` from the
integration's `const.py` (not under `src/`), the fixed base string used when
deriving a component switch's unique identifier. -/
def TYPE_HYPERHDR_COMPONENT_SWITCH_BASE : String := "hyperhdr_component_switch"

/-- Modelled from the spec: `NAME_SUFFIX_HYPERHDR_COMPONENT_SWITCH` from the
integration's `const.py` (not under `src/`), the fixed word placed between
the instance name and the component label in a switch's display name. -/
def NAME_SUFFIX_HYPERHDR_COMPONENT_SWITCH : String := "Component"

/-- Modelled from the spec: `SIGNAL_ENTITY_REMOVE.format(unique_id)` from the
integration's `const.py` (not under `src/`); a per-entity removal signal
keyed by the entity's own unique identifier. -/
def SIGNAL_ENTITY_REMOVE_format (unique_id : String) : String :=
  "hyperhdr_entity_remove_" ++ unique_id

/-- Decimal digits of a natural number, most significant first; models how
a Python f-string renders `instance_num`. -/
def natReprChars (n : Nat) : List Char :=
  if _h : n < 10 then [Nat.digitChar n]
  else natReprChars (n / 10) ++ [Nat.digitChar (n % 10)]
decreasing_by exact Nat.div_lt_self (by omega) (by omega)

/-- Decimal string of a natural number. -/
def natStr (n : Nat) : String := ⟨natReprChars n⟩

/-- Modelled from the spec: `get_hyperhdr_unique_id` from the integration's
`__init__.py` (not under `src/`): a stable string derived from server
identity, instance number and a per-entity name, joined by underscores. -/
def get_hyperhdr_unique_id (server_id : String) (instance_num : Nat)
    (name : String) : String :=
  server_id ++ "_" ++ natStr instance_num ++ "_" ++ name

/-- Modelled from the spec: `get_hyperhdr_device_id` from the integration's
`__init__.py` (not under `src/`): the device identifier derived from server
identity and instance number. -/
def get_hyperhdr_device_id (server_id : String) (instance_num : Nat) : String :=
  server_id ++ "_" ++ natStr instance_num

/-! The host framework helper `slugify` (`homeassistant.util.slugify`),
modelled: lowercase, replace every non-alphanumeric character by `_`,
collapse separator runs and strip separators at both ends. -/

/-- Collapse consecutive duplicate underscores. -/
def collapseSep : List Char → List Char
  | [] => []
  | [c] => [c]
  | a :: b :: rest =>
    if a = '_' && b = '_' then collapseSep (b :: rest)
    else a :: collapseSep (b :: rest)

/-- Drop underscores at both ends. -/
def trimSep (l : List Char) : List Char :=
  ((l.dropWhile (· = '_')).reverse.dropWhile (· = '_')).reverse

def slugify (s : String) : String :=
  ⟨trimSep (collapseSep (s.data.map
      (fun c => if c.isAlphanum then c.toLower else '_')))⟩

/-- The Python method `str.capitalize`: first character uppercased, the rest
lowercased. -/
def pyCapitalize (s : String) : String :=
  match s.data with
  | [] => ""
  | c :: rest => ⟨c.toUpper :: rest.map Char.toLower⟩

/-! The file `switch.py` itself. -/

/-- The constant COMPONENT_SWITCHES: the fixed list of managed component kinds
(`switch.py` lines 54-64). -/
def COMPONENT_SWITCHES : List String :=
  [KEY_COMPONENTID_ALL,
   KEY_COMPONENTID_SMOOTHING,
   KEY_COMPONENTID_BLACKBORDER,
   KEY_COMPONENTID_FORWARDER,
   KEY_COMPONENTID_BOBLIGHTSERVER,
   KEY_COMPONENTID_SYSTEMGRABBER,
   KEY_COMPONENTID_LEDDEVICE,
   KEY_COMPONENTID_VIDEOGRABBER,
   KEY_COMPONENTID_HDR]

/-- The slug of a component switch type name, when the component is known
to the registry: slugify of the switch base followed by the registry label.
Here `none` models the `KeyError` a Python dict raises on an absent key. -/
def componentSlug (component : String) : Option String :=
  (KEY_COMPONENTID_TO_NAME.lookup component).map
    (fun label => slugify (TYPE_HYPERHDR_COMPONENT_SWITCH_BASE ++ " " ++ label))

/-- Embedding of `_component_to_unique_id` (`switch.py` lines 67-75). The raw dict
indexing `KEY_COMPONENTID_TO_NAME[component]` raises `KeyError` on an
unknown component, modelled by `none`. -/
def _component_to_unique_id (server_id component : String)
    (instance_num : Nat) : Option String :=
  (componentSlug component).map
    (fun slug => get_hyperhdr_unique_id server_id instance_num slug)

/-- Embedding of `_component_to_switch_name` (`switch.py` lines 78-84): uses
`KEY_COMPONENTID_TO_NAME.get(component, component.capitalize())`, total with
a capitalized fallback. -/
def _component_to_switch_name (component instance_name : String) : String :=
  instance_name ++ " " ++ NAME_SUFFIX_HYPERHDR_COMPONENT_SWITCH ++ " " ++
    ((KEY_COMPONENTID_TO_NAME.lookup component).getD (pyCapitalize component))

/-- One entry of the client component snapshot collection: a Python dict
with a `name` key and an optional `enabled` key (absent is `none`). -/
structure ComponentState where
  name : String
  enabled : Option Bool
deriving DecidableEq, Repr

/-- The slice of the external `hyperhdr` client state the switch platform
reads: `client.components` (which may be `None`) and
`client.has_loaded_state`. -/
structure HyperHDRClientState where
  components : Option (List ComponentState)
  has_loaded_state : Bool
deriving DecidableEq, Repr

/-- The value returned by the `is_on` scan over a snapshot collection:
the first entry with a matching name contributes
`component.setdefault(KEY_ENABLED, False)`, i.e. its `enabled` value with
an absent key read as `False`; no match gives `False`. -/
def is_on_value (component_name : String) : List ComponentState → Bool
  | [] => false
  | c :: rest =>
    if c.name = component_name then c.enabled.getD false
    else is_on_value component_name rest

/-- The `is_on` scan together with its `setdefault` side effect: when the
first matching entry lacks the `enabled` key, `False` is inserted into that
entry; all other entries are untouched. -/
def is_on_run (component_name : String) :
    List ComponentState → Bool × List ComponentState
  | [] => (false, [])
  | c :: rest =>
    if c.name = component_name then
      match c.enabled with
      | some b => (b, c :: rest)
      | none => (false, { c with enabled := some false } :: rest)
    else
      let r := is_on_run component_name rest
      (r.1, c :: r.2)

/-- A `HyperHDRComponentSwitch` entity: the data stored by `__init__`
(`switch.py` lines 133-152). The client handle is a non-owning reference,
modelled as an opaque numeric handle. -/
structure HyperHDRComponentSwitch where
  server_id : String
  instance_num : Nat
  instance_name : String
  component_name : String
  client : Nat
deriving DecidableEq, Repr

namespace HyperHDRComponentSwitch

/-- The field `self._unique_id` as computed in `__init__`. -/
def unique_id (e : HyperHDRComponentSwitch) : Option String :=
  _component_to_unique_id e.server_id e.component_name e.instance_num

/-- The field `self._device_id` as computed in `__init__`. -/
def device_id (e : HyperHDRComponentSwitch) : String :=
  get_hyperhdr_device_id e.server_id e.instance_num

/-- The field `self._name` as computed in `__init__`. -/
def switch_name (e : HyperHDRComponentSwitch) : String :=
  _component_to_switch_name e.component_name e.instance_name

/-- The field `self._client_callbacks` as computed in `__init__` (lines
150-152): a one-entry dict mapping the components-update event key to the
bound method `self._update_components`, identified by its owning entity. -/
def client_callbacks (e : HyperHDRComponentSwitch) :
    List (String × HyperHDRComponentSwitch) :=
  [(KEY_COMPONENTS ++ "-" ++ KEY_UPDATE, e)]

/-- The `is_on` property (lines 175-181), reading the client's current
snapshot collection (`self._client.components or []`); value only. -/
def is_on (e : HyperHDRComponentSwitch) (client : HyperHDRClientState) : Bool :=
  is_on_value e.component_name (client.components.getD [])

/-- The `available` property (lines 183-186):
`bool(self._client.has_loaded_state)`. -/
def available (_e : HyperHDRComponentSwitch) (client : HyperHDRClientState) :
    Bool :=
  client.has_loaded_state

end HyperHDRComponentSwitch

/-- The keyword payload of `client.async_send_set_component`: a
componentstate record holding the component name and the desired state. -/
structure ComponentStateRequest where
  component : String
  state : Bool
deriving DecidableEq, Repr

/-- Embedding of `_async_send_set_component` (lines 198-207): awaits one
`client.async_send_set_component` call and touches nothing else. The result
is the list of outbound requests produced by the call paired with the
(unchanged) client state. -/
def _async_send_set_component (e : HyperHDRComponentSwitch) (value : Bool)
    (client : HyperHDRClientState) :
    List ComponentStateRequest × HyperHDRClientState :=
  ([{ component := e.component_name, state := value }], client)

/-- Embedding of `async_turn_on` (lines 209-211). -/
def async_turn_on (e : HyperHDRComponentSwitch) (client : HyperHDRClientState) :
    List ComponentStateRequest × HyperHDRClientState :=
  _async_send_set_component e true client

/-- Embedding of `async_turn_off` (lines 213-215). -/
def async_turn_off (e : HyperHDRComponentSwitch) (client : HyperHDRClientState) :
    List ComponentStateRequest × HyperHDRClientState :=
  _async_send_set_component e false client

/-- Embedding of `instance_add` (lines 96-111): one `HyperHDRComponentSwitch` per entry of
`COMPONENT_SWITCHES`, each bound to
`entry_data[CONF_INSTANCE_CLIENTS][instance_num]` (the map from instance
number to client handle is the `clients` argument). -/
def instance_add (server_id : String) (clients : Nat → Nat)
    (instance_num : Nat) (instance_name : String) :
    List HyperHDRComponentSwitch :=
  COMPONENT_SWITCHES.map (fun component =>
    { server_id := server_id
      instance_num := instance_num
      instance_name := instance_name
      component_name := component
      client := clients instance_num })

/-- Embedding of `instance_remove` (lines 113-123): one dispatcher signal
`SIGNAL_ENTITY_REMOVE.format(_component_to_unique_id(...))` per entry of
`COMPONENT_SWITCHES`; `none` models a `KeyError` escaping the loop. -/
def instance_remove (server_id : String) (instance_num : Nat) :
    Option (List String) :=
  COMPONENT_SWITCHES.mapM (fun component =>
    (_component_to_unique_id server_id component instance_num).map
      SIGNAL_ENTITY_REMOVE_format)

/-- The removal signal an entity subscribes to in `async_added_to_hass`
(lines 224-230): `SIGNAL_ENTITY_REMOVE.format(self._unique_id)`. -/
def entity_remove_signal (e : HyperHDRComponentSwitch) : Option String :=
  e.unique_id.map SIGNAL_ENTITY_REMOVE_format

/-- Dispatcher delivery of removal signals: each entity observing its own
removal signal removes itself (`functools.partial(self.async_remove, ...)`);
the entities remaining alive are those whose signal was not fired. -/
def process_remove_signals (entities : List HyperHDRComponentSwitch)
    (signals : List String) : List HyperHDRComponentSwitch :=
  entities.filter (fun e =>
    match entity_remove_signal e with
    | some sig => !signals.contains sig
    | none => true)

/-- Embedding of `client.add_callbacks` of the external client (spec section 6): register
each (event key, handler) pair. -/
def add_callbacks (regs cbs : List (String × HyperHDRComponentSwitch)) :
    List (String × HyperHDRComponentSwitch) :=
  regs ++ cbs

/-- Embedding of `client.remove_callbacks` of the external client (spec section 6):
deregister each (event key, handler) pair. -/
def remove_callbacks (regs cbs : List (String × HyperHDRComponentSwitch)) :
    List (String × HyperHDRComponentSwitch) :=
  regs.filter (fun p => !cbs.contains p)

/-- The pairs `async_added_to_hass` (line 232) passes to
`client.add_callbacks`. -/
def callbacks_added_at_attach (e : HyperHDRComponentSwitch) :
    List (String × HyperHDRComponentSwitch) :=
  e.client_callbacks

/-- The pairs `async_will_remove_from_hass` (lines 234-236) passes to
`client.remove_callbacks`. -/
def callbacks_removed_at_detach (e : HyperHDRComponentSwitch) :
    List (String × HyperHDRComponentSwitch) :=
  e.client_callbacks

/-- Effect of `async_added_to_hass` on the client's callback registrations. -/
def async_added_to_hass (e : HyperHDRComponentSwitch)
    (regs : List (String × HyperHDRComponentSwitch)) :
    List (String × HyperHDRComponentSwitch) :=
  add_callbacks regs (callbacks_added_at_attach e)

/-- Effect of `async_will_remove_from_hass` on the client's callback
registrations. -/
def async_will_remove_from_hass (e : HyperHDRComponentSwitch)
    (regs : List (String × HyperHDRComponentSwitch)) :
    List (String × HyperHDRComponentSwitch) :=
  remove_callbacks regs (callbacks_removed_at_detach e)

/-! Basic lemmas about the snapshot scan. -/

lemma is_on_value_eq_true {k : String} :
    ∀ {S : List ComponentState}, is_on_value k S = true →
      ∃ c ∈ S, c.name = k ∧ c.enabled = some true := by
  intro S
  induction S with
  | nil => intro h; simp [is_on_value] at h
  | cons c rest ih =>
    intro h
    by_cases hc : c.name = k
    · refine ⟨c, List.mem_cons_self .., hc, ?_⟩
      simp only [is_on_value, if_pos hc] at h
      cases he : c.enabled with
      | none => rw [he] at h; simp at h
      | some b => rw [he] at h; simp at h; rw [h]
    · simp only [is_on_value, if_neg hc] at h
      obtain ⟨d, hd, hdk, hde⟩ := ih h
      exact ⟨d, List.mem_cons_of_mem _ hd, hdk, hde⟩

lemma is_on_value_of_mem {k : String} :
    ∀ {S : List ComponentState}, (S.map ComponentState.name).Nodup →
      (∃ c ∈ S, c.name = k ∧ c.enabled = some true) →
      is_on_value k S = true := by
  intro S
  induction S with
  | nil => intro _ h; simp at h
  | cons c rest ih =>
    intro hnd hex
    obtain ⟨d, hd, hdk, hde⟩ := hex
    simp only [List.map_cons, List.nodup_cons] at hnd
    by_cases hc : c.name = k
    · rcases List.mem_cons.mp hd with hdc | hdrest
      · subst hdc
        simp [is_on_value, if_pos hc, hde]
      · exfalso
        apply hnd.1
        have : d.name ∈ rest.map ComponentState.name :=
          List.mem_map_of_mem ComponentState.name hdrest
        rw [hdk, ← hc] at this
        exact this
    · rcases List.mem_cons.mp hd with hdc | hdrest
      · subst hdc; exact absurd hdk hc
      · simp only [is_on_value, if_neg hc]
        exact ih hnd.2 ⟨d, hdrest, hdk, hde⟩

lemma is_on_run_fst (k : String) :
    ∀ S : List ComponentState, (is_on_run k S).1 = is_on_value k S := by
  intro S
  induction S with
  | nil => rfl
  | cons c rest ih =>
    by_cases hc : c.name = k
    · cases he : c.enabled <;> simp [is_on_run, is_on_value, hc, he]
    · simp [is_on_run, is_on_value, hc, ih]

/-- C1: for every ComponentKind and every snapshot collection held by the
client, `is_on` is true exactly when the collection has an entry whose name
matches the component and whose `enabled` field is `true`; an absent entry
or an absent `enabled` field yields `false`, and the scan is a total
function, also on the empty collection. (A snapshot collection keys its
entries uniquely by name; the forward direction holds unconditionally.) -/
theorem is_on_true_iff_enabled_component (e : HyperHDRComponentSwitch)
    (hl : Bool) (S : List ComponentState) :
    (e.is_on ⟨some S, hl⟩ = true →
      ∃ c ∈ S, c.name = e.component_name ∧ c.enabled = some true) ∧
    ((S.map ComponentState.name).Nodup →
      (e.is_on ⟨some S, hl⟩ = true ↔
        ∃ c ∈ S, c.name = e.component_name ∧ c.enabled = some true)) ∧
    ((∀ c ∈ S, c.name = e.component_name → c.enabled = none) →
      e.is_on ⟨some S, hl⟩ = false) ∧
    e.is_on ⟨some [], hl⟩ = false := by
  refine ⟨fun h => is_on_value_eq_true h,
    fun hnd => ⟨fun h => is_on_value_eq_true h, fun h => is_on_value_of_mem hnd h⟩,
    fun habs => ?_, rfl⟩
  cases hv : e.is_on ⟨some S, hl⟩ with
  | false => rfl
  | true =>
    obtain ⟨c, hc, hck, hce⟩ := is_on_value_eq_true (k := e.component_name) hv
    rw [habs c hc hck] at hce
    exact absurd hce (by simp)

/-- Witness for C1 at the spec's scenario: snapshot
`[{name: SMOOTHING, enabled: true}]`, queried for `SMOOTHING`. -/
theorem is_on_true_iff_enabled_component_witness :
    HyperHDRComponentSwitch.is_on ⟨"srv", 1, "Living Room", "SMOOTHING", 7⟩
        ⟨some [⟨"SMOOTHING", some true⟩], true⟩ = true ↔
      ∃ c ∈ [ComponentState.mk "SMOOTHING" (some true)],
        c.name = "SMOOTHING" ∧ c.enabled = some true :=
  (is_on_true_iff_enabled_component ⟨"srv", 1, "Living Room", "SMOOTHING", 7⟩
    true [⟨"SMOOTHING", some true⟩]).2.1 (by decide)

/-- C10: when the client reports no snapshot collection at all
(`client.components` is `None`), `is_on` evaluates to `false` for every
entity, without failing (`self._client.components or []`). -/
theorem is_on_false_when_components_absent (e : HyperHDRComponentSwitch)
    (hl : Bool) : e.is_on ⟨none, hl⟩ = false := rfl

/-- C2: `async_turn_on` / `async_turn_off` produce exactly one outbound
set-component request carrying the desired value, and leave the client
state — hence the value of `is_on` — unchanged; only a new snapshot can
change `is_on`. -/
theorem turn_on_off_one_request_no_mutation (e : HyperHDRComponentSwitch)
    (client : HyperHDRClientState) :
    (async_turn_on e client).1 = [{ component := e.component_name, state := true }] ∧
    (async_turn_off e client).1 = [{ component := e.component_name, state := false }] ∧
    (async_turn_on e client).2 = client ∧
    (async_turn_off e client).2 = client ∧
    e.is_on (async_turn_on e client).2 = e.is_on client ∧
    e.is_on (async_turn_off e client).2 = e.is_on client :=
  ⟨rfl, rfl, rfl, rfl, rfl, rfl⟩

/-- C4: `available` is true exactly when the owning client has completed its
first full state load, independently of the snapshot collection's
contents. -/
theorem available_iff_loaded (e : HyperHDRComponentSwitch)
    (client : HyperHDRClientState) :
    (e.available client = true ↔ client.has_loaded_state = true) ∧
    (∀ comps : Option (List ComponentState),
      e.available { client with components := comps } = e.available client) :=
  ⟨Iff.rfl, fun _ => rfl⟩

/-- C9: reading `is_on` on a collection whose first matching entry lacks the
`enabled` field returns `false` and inserts `enabled = false` into that
entry (the mutation is visible to later readers of the same collection);
when the matching entry already carries the field, the collection is left
unchanged, and in either case the value read agrees with the pure scan. -/
theorem is_on_setdefault_effect (k : String) (pre post : List ComponentState)
    (m : ComponentState) (hpre : ∀ c ∈ pre, c.name ≠ k) (hm : m.name = k) :
    (m.enabled = none →
      is_on_run k (pre ++ m :: post) =
        (false, pre ++ { m with enabled := some false } :: post)) ∧
    (∀ b, m.enabled = some b →
      is_on_run k (pre ++ m :: post) = (b, pre ++ m :: post)) ∧
    (is_on_run k (pre ++ m :: post)).1 = is_on_value k (pre ++ m :: post) := by
  refine ⟨?_, ?_, is_on_run_fst k _⟩
  · intro he
    induction pre with
    | nil => simp [is_on_run, hm, he]
    | cons a rest ih =>
      have ha : a.name ≠ k := hpre a (List.mem_cons_self ..)
      have ih2 := ih (fun c hc => hpre c (List.mem_cons_of_mem _ hc))
      simp only [List.cons_append, is_on_run, List.append_eq, if_neg ha, ih2]
  · intro b he
    induction pre with
    | nil => simp [is_on_run, hm, he]
    | cons a rest ih =>
      have ha : a.name ≠ k := hpre a (List.mem_cons_self ..)
      have ih2 := ih (fun c hc => hpre c (List.mem_cons_of_mem _ hc))
      simp only [List.cons_append, is_on_run, List.append_eq, if_neg ha, ih2]

/-- Witness for C9: the missing-field entry for `SMOOTHING` is read as
`false` and gets `enabled = false` inserted; neighbours are untouched. -/
theorem is_on_setdefault_effect_witness :
    is_on_run "SMOOTHING"
        [⟨"ALL", some true⟩, ⟨"SMOOTHING", none⟩, ⟨"HDR", some true⟩] =
      (false, [⟨"ALL", some true⟩, ⟨"SMOOTHING", some false⟩, ⟨"HDR", some true⟩]) :=
  (is_on_setdefault_effect "SMOOTHING" [⟨"ALL", some true⟩] [⟨"HDR", some true⟩]
    ⟨"SMOOTHING", none⟩ (by decide) rfl).1 rfl

/-! The unique-identifier encoding and its injectivity. -/

lemma digitChar_isDigit {k : Nat} (h : k < 10) : (Nat.digitChar k).isDigit = true := by
  interval_cases k <;> decide

lemma digitChar_toNat {k : Nat} (h : k < 10) : (Nat.digitChar k).toNat = 48 + k := by
  interval_cases k <;> decide

lemma natReprChars_isDigit : ∀ n : Nat, ∀ c ∈ natReprChars n, c.isDigit = true := by
  intro n
  induction n using Nat.strong_induction_on with
  | _ n ih =>
    intro c hc
    rw [natReprChars] at hc
    split at hc
    · next h =>
      simp only [List.mem_singleton] at hc
      exact hc ▸ digitChar_isDigit h
    · next h =>
      rcases List.mem_append.mp hc with hc1 | hc2
      · exact ih (n / 10) (Nat.div_lt_self (by omega) (by omega)) c hc1
      · simp only [List.mem_singleton] at hc2
        exact hc2 ▸ digitChar_isDigit (Nat.mod_lt _ (by omega))

lemma sep_not_mem_natReprChars (n : Nat) : '_' ∉ natReprChars n := by
  intro h
  have := natReprChars_isDigit n '_' h
  exact absurd this (by decide)

/-- Decimal value of a digit list; a left inverse of `natReprChars`. -/
def digitsVal (l : List Char) : Nat :=
  l.foldl (fun a c => 10 * a + (c.toNat - 48)) 0

lemma digitsVal_append_singleton (l : List Char) (c : Char) :
    digitsVal (l ++ [c]) = 10 * digitsVal l + (c.toNat - 48) := by
  simp [digitsVal, List.foldl_append]

lemma digitsVal_natReprChars : ∀ n : Nat, digitsVal (natReprChars n) = n := by
  intro n
  induction n using Nat.strong_induction_on with
  | _ n ih =>
    rw [natReprChars]
    split
    · next h =>
      simp [digitsVal, digitChar_toNat h]
    · next h =>
      rw [digitsVal_append_singleton,
        ih (n / 10) (Nat.div_lt_self (by omega) (by omega)),
        digitChar_toNat (Nat.mod_lt _ (by omega))]
      omega

lemma natStr_inj {m n : Nat} (h : natStr m = natStr n) : m = n := by
  have hd : natReprChars m = natReprChars n := congrArg String.data h
  rw [← digitsVal_natReprChars m, ← digitsVal_natReprChars n, hd]

/-- Splitting at a separator that occurs in neither left part is
unambiguous. -/
lemma append_sep_eq_append_sep {α : Type _} {sep : α} :
    ∀ (u1 : List α) {v1 : List α} (u2 : List α) {v2 : List α},
      sep ∉ u1 → sep ∉ u2 → u1 ++ sep :: v1 = u2 ++ sep :: v2 →
      u1 = u2 ∧ v1 = v2 := by
  intro u1
  induction u1 with
  | nil =>
    intro v1 u2 v2 _ hu2 h
    cases u2 with
    | nil =>
      simp only [List.nil_append] at h
      exact ⟨rfl, (List.cons.inj h).2⟩
    | cons b u2t =>
      simp only [List.nil_append, List.cons_append] at h
      exact absurd ((List.cons.inj h).1 ▸ List.mem_cons_self ..) hu2
  | cons a u1t ih =>
    intro v1 u2 v2 hu1 hu2 h
    cases u2 with
    | nil =>
      simp only [List.nil_append, List.cons_append] at h
      exact absurd ((List.cons.inj h).1 ▸ List.mem_cons_self ..) hu1
    | cons b u2t =>
      simp only [List.cons_append] at h
      obtain ⟨hab, ht⟩ := List.cons.inj h
      obtain ⟨h1, h2⟩ := ih u2t (fun hm => hu1 (List.mem_cons_of_mem _ hm))
        (fun hm => hu2 (List.mem_cons_of_mem _ hm)) ht
      exact ⟨by rw [hab, h1], h2⟩

/-- The switch-type slugs of the nine managed components. -/
def SLUGS : List String := COMPONENT_SWITCHES.filterMap componentSlug

lemma slugs_nodup : SLUGS.Nodup := by decide

lemma componentSlug_isSome : ∀ k ∈ COMPONENT_SWITCHES, (componentSlug k).isSome = true := by
  decide

lemma componentSlug_inj : ∀ k1 ∈ COMPONENT_SWITCHES, ∀ k2 ∈ COMPONENT_SWITCHES,
    componentSlug k1 = componentSlug k2 → k1 = k2 := by
  decide

/-- No managed slug (with the separator appended, reversed) is an initial
segment of another's: checked over all 81 pairs. -/
lemma slug_rev_take_eq : ∀ g1 ∈ SLUGS, ∀ g2 ∈ SLUGS,
    (g2.data.reverse ++ ['_']).take (g1.data.reverse ++ ['_']).length =
      g1.data.reverse ++ ['_'] → g1 = g2 := by
  decide

lemma componentSlug_mem_slugs {k : String} (hk : k ∈ COMPONENT_SWITCHES) :
    ∃ g, componentSlug k = some g ∧ g ∈ SLUGS := by
  cases hck : componentSlug k with
  | none =>
    have hs := componentSlug_isSome k hk
    rw [hck] at hs
    simp at hs
  | some g => exact ⟨g, rfl, List.mem_filterMap.mpr ⟨k, hk, hck⟩⟩

lemma sep_data : ("_" : String).data = ['_'] := rfl

lemma uid_data (s : String) (n : Nat) (g : String) :
    (get_hyperhdr_unique_id s n g).data =
      s.data ++ '_' :: (natReprChars n ++ '_' :: g.data) := by
  simp [get_hyperhdr_unique_id, natStr, String.data_append, sep_data]

lemma uid_data_reverse (s : String) (n : Nat) (g : String) :
    (get_hyperhdr_unique_id s n g).data.reverse =
      (g.data.reverse ++ ['_']) ++
        ((natReprChars n).reverse ++ '_' :: s.data.reverse) := by
  rw [uid_data]
  simp [List.reverse_append, List.reverse_cons, List.append_assoc]

/-- The underscore-joined unique-identifier encoding is injective on
(server id, instance number, managed slug) triples. -/
lemma unique_id_encode_inj {s1 s2 g1 g2 : String} {n1 n2 : Nat}
    (hg1 : g1 ∈ SLUGS) (hg2 : g2 ∈ SLUGS)
    (h : get_hyperhdr_unique_id s1 n1 g1 = get_hyperhdr_unique_id s2 n2 g2) :
    s1 = s2 ∧ n1 = n2 ∧ g1 = g2 := by
  have hr := congrArg (fun t : String => t.data.reverse) h
  simp only [uid_data_reverse] at hr
  have hgg : g1 = g2 := by
    rcases List.append_eq_append_iff.mp hr with ⟨t, ht, _⟩ | ⟨t, ht, _⟩
    · refine slug_rev_take_eq g1 hg1 g2 hg2 ?_
      rw [ht]
      exact List.take_left ..
    · refine (slug_rev_take_eq g2 hg2 g1 hg1 ?_).symm
      rw [ht]
      exact List.take_left ..
  subst hgg
  have hrest := List.append_cancel_left hr
  have hsep1 : '_' ∉ (natReprChars n1).reverse := by
    rw [List.mem_reverse]; exact sep_not_mem_natReprChars n1
  have hsep2 : '_' ∉ (natReprChars n2).reverse := by
    rw [List.mem_reverse]; exact sep_not_mem_natReprChars n2
  obtain ⟨hn, hs⟩ := append_sep_eq_append_sep _ _ hsep1 hsep2 hrest
  refine ⟨?_, ?_, rfl⟩
  · have : s1.data = s2.data := by
      have := congrArg List.reverse hs
      simpa [List.reverse_reverse] using this
    exact String.ext this
  · have hN : natReprChars n1 = natReprChars n2 := by
      have := congrArg List.reverse hn
      simpa [List.reverse_reverse] using this
    exact natStr_inj (congrArg String.mk hN)

/-- C3: the unique-identifier derivation is a deterministic function of
(server id, instance number, component kind), and two derivations that
differ in the instance number or in the component kind (over the fixed
managed set) never collide — in fact not even across different server
identifiers. -/
theorem unique_id_deterministic_and_injective (s1 s2 k1 k2 : String)
    (n1 n2 : Nat) (hk1 : k1 ∈ COMPONENT_SWITCHES) (hk2 : k2 ∈ COMPONENT_SWITCHES) :
    (s1 = s2 → k1 = k2 → n1 = n2 →
      _component_to_unique_id s1 k1 n1 = _component_to_unique_id s2 k2 n2) ∧
    (k1 ≠ k2 ∨ n1 ≠ n2 →
      _component_to_unique_id s1 k1 n1 ≠ _component_to_unique_id s2 k2 n2) := by
  constructor
  · rintro rfl rfl rfl; rfl
  · intro hne heq
    obtain ⟨g1, hck1, hg1⟩ := componentSlug_mem_slugs hk1
    obtain ⟨g2, hck2, hg2⟩ := componentSlug_mem_slugs hk2
    rw [_component_to_unique_id, _component_to_unique_id, hck1, hck2] at heq
    simp only [Option.map_some', Option.some.injEq] at heq
    obtain ⟨-, hn, hg⟩ := unique_id_encode_inj hg1 hg2 heq
    rcases hne with hne | hne
    · exact hne (componentSlug_inj k1 hk1 k2 hk2 (by rw [hck1, hck2, hg]))
    · exact hne hn

/-- Witness for C3: two kinds on the same server and instance get distinct
identifiers, and so do two instances of the same kind. -/
theorem unique_id_deterministic_and_injective_witness :
    _component_to_unique_id "srv" "SMOOTHING" 1 ≠
        _component_to_unique_id "srv" "FORWARDER" 1 ∧
      _component_to_unique_id "srv" "SMOOTHING" 1 ≠
        _component_to_unique_id "srv" "SMOOTHING" 12 :=
  ⟨(unique_id_deterministic_and_injective "srv" "srv" "SMOOTHING" "FORWARDER"
      1 1 (by decide) (by decide)).2 (Or.inl (by decide)),
   (unique_id_deterministic_and_injective "srv" "srv" "SMOOTHING" "SMOOTHING"
      1 12 (by decide) (by decide)).2 (Or.inr (by decide))⟩

/-- C5: an instance-added event for (instance number, instance name)
constructs exactly one `HyperHDRComponentSwitch` per managed component kind
— nine in all, in the order of `COMPONENT_SWITCHES` — each bound to that
instance's client handle. -/
theorem instance_add_one_entity_per_component (server_id : String)
    (clients : Nat → Nat) (instance_num : Nat) (instance_name : String) :
    (instance_add server_id clients instance_num instance_name).length = 9 ∧
    (instance_add server_id clients instance_num instance_name).map
        HyperHDRComponentSwitch.component_name = COMPONENT_SWITCHES ∧
    ∀ e ∈ instance_add server_id clients instance_num instance_name,
      e.server_id = server_id ∧ e.instance_num = instance_num ∧
        e.instance_name = instance_name ∧ e.client = clients instance_num := by
  refine ⟨rfl, rfl, ?_⟩
  intro e he
  simp only [instance_add, List.mem_map] at he
  obtain ⟨c, -, rfl⟩ := he
  exact ⟨rfl, rfl, rfl, rfl⟩

/-- Witness for C5 at the spec's scenario (instance 1 "Living Room"): the
first constructed entity is bound to instance 1's client handle. -/
theorem instance_add_one_entity_per_component_witness :
    HyperHDRComponentSwitch.client
        ⟨"srv", 1, "Living Room", "ALL", 3⟩ = (fun _ : Nat => 3) 1 ∧
      (instance_add "srv" (fun _ => 3) 1 "Living Room").length = 9 :=
  ⟨((instance_add_one_entity_per_component "srv" (fun _ => 3) 1
        "Living Room").2.2 ⟨"srv", 1, "Living Room", "ALL", 3⟩
      (by decide)).2.2.2,
   (instance_add_one_entity_per_component "srv" (fun _ => 3) 1
      "Living Room").1⟩

/-- C7 counterexample: for an identifier outside the fixed registry the
unique-identifier derivation does not fall back to the capitalized raw
identifier — the raw dict indexing on line 73 raises `KeyError` (modelled
as `none`), even though the display-name consumer on line 83 does fall
back. -/
theorem registry_fallback_counterexample :
    KEY_COMPONENTID_TO_NAME.lookup "bogus_component" = none ∧
    _component_to_unique_id "srv" "bogus_component" 1 = none ∧
    _component_to_switch_name "bogus_component" "Living Room" =
      "Living Room Component Bogus_component" := by
  decide

/-- C7 as amended: for every component kind in the registry both consumers
use the canonical display label (and the unique-identifier derivation
succeeds); for an identifier outside the registry only
`_component_to_switch_name` falls back to the capitalized raw identifier,
while `_component_to_unique_id` fails with a `KeyError`. -/
theorem registry_label_and_fallback (component instance_name : String) :
    (∀ label, KEY_COMPONENTID_TO_NAME.lookup component = some label →
      _component_to_switch_name component instance_name =
        instance_name ++ " " ++ NAME_SUFFIX_HYPERHDR_COMPONENT_SWITCH ++ " " ++
          label ∧
      ∀ s n, _component_to_unique_id s component n =
        some (get_hyperhdr_unique_id s n
          (slugify (TYPE_HYPERHDR_COMPONENT_SWITCH_BASE ++ " " ++ label)))) ∧
    (KEY_COMPONENTID_TO_NAME.lookup component = none →
      _component_to_switch_name component instance_name =
        instance_name ++ " " ++ NAME_SUFFIX_HYPERHDR_COMPONENT_SWITCH ++ " " ++
          pyCapitalize component ∧
      ∀ s n, _component_to_unique_id s component n = none) := by
  constructor
  · intro label hl
    refine ⟨?_, fun s n => ?_⟩
    · rw [_component_to_switch_name, hl]; rfl
    · rw [_component_to_unique_id, componentSlug, hl]; rfl
  · intro hl
    refine ⟨?_, fun s n => ?_⟩
    · rw [_component_to_switch_name, hl]; rfl
    · rw [_component_to_unique_id, componentSlug, hl]; rfl

/-- Witness for C7's amended claim, at a registered kind and at an unknown
identifier. -/
theorem registry_label_and_fallback_witness :
    (_component_to_switch_name "SMOOTHING" "Living Room" =
        "Living Room" ++ " " ++ NAME_SUFFIX_HYPERHDR_COMPONENT_SWITCH ++ " " ++
          "Smoothing") ∧
    (_component_to_switch_name "bogus_component" "Living Room" =
        "Living Room" ++ " " ++ NAME_SUFFIX_HYPERHDR_COMPONENT_SWITCH ++ " " ++
          pyCapitalize "bogus_component") ∧
    _component_to_unique_id "srv" "bogus_component" 0 = none :=
  ⟨((registry_label_and_fallback "SMOOTHING" "Living Room").1 "Smoothing"
      (by decide)).1,
   ((registry_label_and_fallback "bogus_component" "Living Room").2
      (by decide)).1,
   ((registry_label_and_fallback "bogus_component" "Living Room").2
      (by decide)).2 "srv" 0⟩

/-! Removal signals and callback pairing. -/

lemma uid_right_inj {s : String} {n : Nat} {g1 g2 : String}
    (h : get_hyperhdr_unique_id s n g1 = get_hyperhdr_unique_id s n g2) :
    g1 = g2 := by
  have hd := congrArg String.data h
  rw [uid_data, uid_data] at hd
  have h1 := List.append_cancel_left hd
  have h2 := (List.cons.inj h1).2
  have h3 := (List.cons.inj (List.append_cancel_left h2)).2
  exact String.ext h3

lemma remove_signal_format_inj {a b : String}
    (h : SIGNAL_ENTITY_REMOVE_format a = SIGNAL_ENTITY_REMOVE_format b) :
    a = b := by
  have hd := congrArg String.data h
  simp only [SIGNAL_ENTITY_REMOVE_format, String.data_append] at hd
  exact String.ext (List.append_cancel_left hd)

/-- C6: an instance-removed event emits exactly one removal signal per
managed component kind — nine pairwise-distinct signals, each keyed by the
very unique identifier the corresponding entity of `instance_add` was
constructed with — so an instance-added immediately followed by an
instance-removed leaves no live entity for that instance. -/
theorem instance_remove_one_signal_per_component
    (server_id instance_name : String) (clients : Nat → Nat)
    (instance_num : Nat) :
    ∃ sigs : List String,
      instance_remove server_id instance_num = some sigs ∧
      sigs.length = 9 ∧ sigs.Nodup ∧
      (instance_add server_id clients instance_num instance_name).map
          entity_remove_signal = sigs.map some ∧
      process_remove_signals
        (instance_add server_id clients instance_num instance_name) sigs = [] := by
  refine ⟨SLUGS.map (fun g => SIGNAL_ENTITY_REMOVE_format
      (get_hyperhdr_unique_id server_id instance_num g)), rfl, rfl, ?_, rfl, ?_⟩
  · have hinj : Function.Injective (fun g => SIGNAL_ENTITY_REMOVE_format
        (get_hyperhdr_unique_id server_id instance_num g)) :=
      fun a b h => uid_right_inj (remove_signal_format_inj h)
    exact slugs_nodup.map hinj
  · rw [process_remove_signals, List.filter_eq_nil_iff]
    intro e he
    simp only [instance_add, List.mem_map] at he
    obtain ⟨c, hc, rfl⟩ := he
    obtain ⟨g, hck, hgmem⟩ := componentSlug_mem_slugs hc
    have hsig : entity_remove_signal
        { server_id := server_id, instance_num := instance_num,
          instance_name := instance_name, component_name := c,
          client := clients instance_num } =
        some (SIGNAL_ENTITY_REMOVE_format
          (get_hyperhdr_unique_id server_id instance_num g)) := by
      simp [entity_remove_signal, HyperHDRComponentSwitch.unique_id,
        _component_to_unique_id, hck]
    have hmem : SIGNAL_ENTITY_REMOVE_format
        (get_hyperhdr_unique_id server_id instance_num g) ∈
        SLUGS.map (fun g => SIGNAL_ENTITY_REMOVE_format
          (get_hyperhdr_unique_id server_id instance_num g)) :=
      List.mem_map_of_mem _ hgmem
    simp [hsig, hmem]

/-- C8: the (event key, handler) pairs an entity deregisters from the client
at detach time are exactly the pairs it registered at attach time, and an
attach followed by a detach restores the client's callback registrations,
leaving no registration of the entity behind. -/
theorem attach_detach_callbacks_symmetric (e : HyperHDRComponentSwitch)
    (regs : List (String × HyperHDRComponentSwitch))
    (hfresh : ∀ p ∈ callbacks_added_at_attach e, p ∉ regs) :
    callbacks_removed_at_detach e = callbacks_added_at_attach e ∧
    async_will_remove_from_hass e (async_added_to_hass e regs) = regs ∧
    ∀ p ∈ callbacks_added_at_attach e,
      p ∉ async_will_remove_from_hass e (async_added_to_hass e regs) := by
  have hround : async_will_remove_from_hass e (async_added_to_hass e regs) = regs := by
    rw [async_will_remove_from_hass, async_added_to_hass, remove_callbacks,
      add_callbacks, callbacks_removed_at_detach, callbacks_added_at_attach,
      List.filter_append]
    have h1 : regs.filter (fun p => !(e.client_callbacks).contains p) = regs := by
      rw [List.filter_eq_self]
      intro p hp
      have hnot : p ∉ e.client_callbacks := fun hmem => hfresh p hmem hp
      simp [hnot]
    have h2 : (e.client_callbacks).filter
        (fun p => !(e.client_callbacks).contains p) = [] := by
      simp [HyperHDRComponentSwitch.client_callbacks]
    rw [h1, h2, List.append_nil]
  refine ⟨rfl, hround, ?_⟩
  intro p hp
  rw [hround]
  exact hfresh p hp

/-- Witness for C8: attaching and then detaching a concrete entity on a
client with no prior registrations leaves no registrations. -/
theorem attach_detach_callbacks_symmetric_witness :
    async_will_remove_from_hass ⟨"srv", 1, "Living Room", "ALL", 3⟩
      (async_added_to_hass ⟨"srv", 1, "Living Room", "ALL", 3⟩ []) = [] :=
  (attach_detach_callbacks_symmetric ⟨"srv", 1, "Living Room", "ALL", 3⟩ []
    (by simp)).2.1

end HyperHDR
